import Mathlib

/-
  Verification development for the midastrader core: the order-execution
  admission algorithm (midastrader/core/adapters/order_manager.py), the
  adapter process loops (order_manager.py, midas/core/performance/base.py),
  the core orchestrator (midastrader/core/engine.py) and the Position
  equality of shared/portfolio.py, shallowly embedded in Lean 4.

  Monetary quantities are embedded as rationals, instrument and contract
  identifiers as naturals, signed order quantities as integers.  Python
  exceptions are embedded as the error side of Except; a function returns
  the list of messages published on the bus.
-/

set_option autoImplicit false

namespace Midas

/-- Order actions. Modelled from the spec: midastrader.structs.orders.Action
is not under src; section 3 of the spec lists the actions LONG, SHORT, BUY,
SELL, COVER, matching the validation list in structs/trade.py. -/
inductive Action where
  | LONG
  | SHORT
  | BUY
  | SELL
  | COVER
  deriving DecidableEq, Repr

/-- An order as derived from a signal instruction. Modelled from the spec:
midastrader.structs.orders.BaseOrder is not under src; section 3 says an
Order carries a signed quantity. Only the quantity is consumed by the
order-execution code under verification. -/
structure BaseOrder where
  quantity : Int
  deriving DecidableEq, Repr

/-- One leg of a multi-leg trade (midastrader.structs.signal.SignalInstruction,
declared outside src). Modelled from the spec: section 3 gives instrument
identifier, order action, trade identifier, leg identifier, target weight; a
signed quantity field feeds the derived order. -/
structure SignalInstruction where
  instrument : Nat
  action : Action
  trade_id : Int
  leg_id : Int
  weight : Rat
  quantity : Int
  deriving DecidableEq, Repr

/-- Modelled from the spec: SignalInstruction.to_order (not under src) derives
the Order from the leg, carrying the signed quantity. -/
def SignalInstruction.to_order (t : SignalInstruction) : BaseOrder :=
  ⟨t.quantity⟩

/-- A SIGNAL event: a timestamp and an ordered sequence of instructions
(midastrader.structs.events.SignalEvent, declared outside src; shape per
section 3 of the spec and its use in order_manager.py). -/
structure SignalEvent where
  timestamp : Int
  instructions : List SignalInstruction
  deriving DecidableEq, Repr

/-- A symbol record as consumed by order_manager.py: an instrument id used as
the order-book key, a contract reference, and the multipliers entering the
cost. Modelled from the spec: midastrader.structs.symbol.Symbol is not under
src; section 3 gives per-instrument price and quantity multipliers. -/
structure Symbol where
  instrument_id : Nat
  contract : Nat
  price_multiplier : Rat
  quantity_multiplier : Int
  deriving DecidableEq, Repr

/-- Modelled from the spec: Symbol.cost (not under src) computes a leg
capital requirement as quantity times price times the instrument
multipliers (spec sections 4.5 step 3). -/
def Symbol.cost (s : Symbol) (quantity : Int) (price : Rat) : Rat :=
  (quantity : Rat) * price * s.price_multiplier * (s.quantity_multiplier : Rat)

/-- The symbol mapping held by SymbolMap.map; a Python dict lookup raises
KeyError when the key is absent, embedded here as an association list with
an optional find. -/
structure SymbolMap where
  map : List (Nat × Symbol)
  deriving DecidableEq, Repr

def SymbolMap.find (m : SymbolMap) (instrument : Nat) : Option Symbol :=
  (m.map.find? (fun p => p.1 == instrument)).map Prod.snd

/-- The order book price cache. Modelled from the spec: OrderBook (not under
src) maps instrument to last price; retrieve fails with NotFound when the
instrument has never been priced (spec section 4.3), embedded as none. -/
structure OrderBook where
  prices : List (Nat × Rat)
  deriving DecidableEq, Repr

def OrderBook.retrieve (ob : OrderBook) (instrument_id : Nat) : Option Rat :=
  (ob.prices.find? (fun p => p.1 == instrument_id)).map Prod.snd

/-- Portfolio state as read by the execution engine. Modelled from the spec:
PortfolioServer is not under src; section 4.4 exposes the active-order
instrument set and the available capital, and section 3 the position map. -/
structure PortfolioState where
  active_order_tickers : List Nat
  capital : Rat
  positions : List (Nat × Int)
  deriving DecidableEq, Repr

/-- Read-only collaborators of the order-execution manager: the symbol map
and the order book, as held by OrderExecutionManager. -/
structure Config where
  symbols_map : SymbolMap
  order_book : OrderBook
  deriving DecidableEq, Repr

/-- Python exceptions raised inside signal handling: a dict KeyError from
symbols_map.map, or the order-book NotFound failure. -/
inductive PyErr where
  | keyError (instrument : Nat)
  | priceNotFound (instrument_id : Nat)
  deriving DecidableEq, Repr

/-- A message published on the bus by the order-execution manager: an ORDER
event (EventType.ORDER with the OrderEvent fields of order_manager.py
lines 199 to 208) or a SYSTEM_UPDATE notification
(EventType.UPDATE_SYSTEM with a boolean payload). -/
inductive BusMsg where
  | orderEvent (timestamp : Int) (trade_id : Int) (leg_id : Int)
      (action : Action) (contract : Nat) (order : BaseOrder)
  | updateSystem (flag : Bool)
  deriving DecidableEq, Repr

/-- The order_details record built for each leg in order_manager.py
lines 147 to 156. -/
structure OrderDetails where
  timestamp : Int
  trade_id : Int
  leg_id : Int
  action : Action
  contract : Nat
  order : BaseOrder
  deriving DecidableEq, Repr

/-- The costing loop of OrderExecutionManager, order_manager.py lines 137
to 160: for each instruction, look the symbol up in symbols_map.map (a dict
access, raising KeyError if absent), derive the order, retrieve the current
price from the order book (NotFound if never priced), compute the leg cost,
append the order_details record, and accumulate the cost into the required
total unless the action is SELL or COVER. -/
def costLoop (cfg : Config) (timestamp : Int) :
    List SignalInstruction → Except PyErr (List OrderDetails × Rat)
  | [] => .ok ([], 0)
  | trade :: rest =>
    match cfg.symbols_map.find trade.instrument with
    | none => .error (.keyError trade.instrument)
    | some symbol =>
      let order := trade.to_order
      match cfg.order_book.retrieve symbol.instrument_id with
      | none => .error (.priceNotFound symbol.instrument_id)
      | some current_price =>
        let order_cost := symbol.cost order.quantity current_price
        let details : OrderDetails :=
          ⟨timestamp, trade.trade_id, trade.leg_id, trade.action,
            symbol.contract, order⟩
        match costLoop cfg timestamp rest with
        | .error e => .error e
        | .ok (orders, total) =>
          .ok (details :: orders,
            (if trade.action ∉ [Action.SELL, Action.COVER]
             then order_cost else 0) + total)

/-- OrderExecutionManager._set_order (order_manager.py lines 176 to 208):
build the OrderEvent and publish it under EventType.ORDER. -/
def set_order (d : OrderDetails) : BusMsg :=
  .orderEvent d.timestamp d.trade_id d.leg_id d.action d.contract d.order

/-- OrderExecutionManager._handle_signal (order_manager.py lines 114 to 174):
run the costing loop over the instructions; if the accumulated required
capital is at most the portfolio capital publish one ORDER event per
order_details record in order, otherwise publish a single SYSTEM_UPDATE
carrying false. An exception from the loop propagates before anything is
published. -/
def handleSignal (cfg : Config) (st : PortfolioState) (timestamp : Int)
    (trade_instructions : List SignalInstruction) :
    Except PyErr (List BusMsg) :=
  match costLoop cfg timestamp trade_instructions with
  | .error e => .error e
  | .ok (orders, total_capital_required) =>
    if total_capital_required ≤ st.capital then
      .ok (orders.map set_order)
    else
      .ok [.updateSystem false]

/-- OrderExecutionManager.handle_event (order_manager.py lines 76 to 112):
read the active-order tickers from the portfolio server; if any instruction
references one of them publish a single SYSTEM_UPDATE carrying false and
return, otherwise delegate to the signal handler. The portfolio state is
threaded through explicitly: the source performs no write to it, so the
returned state is the input state on every path. -/
def handle_event (cfg : Config) (st : PortfolioState) (event : SignalEvent) :
    Except PyErr (PortfolioState × List BusMsg) :=
  let trade_instructions := event.instructions
  let active_orders_tickers := st.active_order_tickers
  if trade_instructions.any
      (fun trade => active_orders_tickers.contains trade.instrument) then
    .ok (st, [.updateSystem false])
  else
    match handleSignal cfg st event.timestamp trade_instructions with
    | .error e => .error e
    | .ok msgs => .ok (st, msgs)

/-- Messages actually published by a signal-handling run: on an exception the
run aborts before the publication phase (the costing loop publishes nothing),
so an error means nothing was published. -/
def publishedMsgs (r : Except PyErr (PortfolioState × List BusMsg)) :
    List BusMsg :=
  match r with
  | .ok (_, msgs) => msgs
  | .error _ => []

def BusMsg.isOrder : BusMsg → Bool
  | .orderEvent _ _ _ _ _ _ => true
  | .updateSystem _ => false

/-- The ORDER events among a list of published messages. -/
def orderEvents (msgs : List BusMsg) : List BusMsg :=
  msgs.filter BusMsg.isOrder

/-- Whether a leg can be costed: its instrument is in the symbol map and the
order book holds a price for the symbol. -/
def legPriceable (cfg : Config) (t : SignalInstruction) : Bool :=
  match cfg.symbols_map.find t.instrument with
  | none => false
  | some s => (cfg.order_book.retrieve s.instrument_id).isSome

/-- The cost of a single priceable leg, as the source computes it. -/
def legCost (cfg : Config) (t : SignalInstruction) : Rat :=
  match cfg.symbols_map.find t.instrument with
  | none => 0
  | some s =>
    match cfg.order_book.retrieve s.instrument_id with
    | none => 0
    | some p => s.cost t.to_order.quantity p

/-- The order_details record the costing loop builds for a leg. -/
def detailOf (cfg : Config) (timestamp : Int) (t : SignalInstruction) :
    OrderDetails :=
  ⟨timestamp, t.trade_id, t.leg_id, t.action,
    (match cfg.symbols_map.find t.instrument with
     | some s => s.contract
     | none => 0),
    t.to_order⟩

/-- The required-capital total over a list of instructions: each leg whose
action is neither SELL nor COVER contributes its cost, exit legs contribute
zero. -/
def totalCapitalRequired (cfg : Config) : List SignalInstruction → Rat
  | [] => 0
  | t :: rest =>
    (if t.action ∉ [Action.SELL, Action.COVER] then legCost cfg t else 0)
      + totalCapitalRequired cfg rest

/-- The while-loop of OrderExecutionManager.process (order_manager.py
lines 63 to 71) seen at the per-iteration handling level: each available
event is taken from the queue and passed to handle_event; an exception other
than queue.Empty propagates out of the loop (the try clause catches only
queue.Empty), while exhausting the events with the shutdown flag observed
exits the loop normally. -/
def processLoop (cfg : Config) (st : PortfolioState) :
    List SignalEvent → Except PyErr Unit
  | [] => .ok ()
  | e :: rest =>
    match handle_event cfg st e with
    | .ok _ => processLoop cfg st rest
    | .error err => .error err

/-- How many times OrderExecutionManager.cleanup runs for a given loop
outcome: the call on line 71 sits after the while-loop with no try/finally
around it, so a propagating exception skips it and a normal exit reaches it
once. -/
def omCleanupRuns (cfg : Config) (st : PortfolioState)
    (events : List SignalEvent) : Nat :=
  match processLoop cfg st events with
  | .ok _ => 1
  | .error _ => 0

/-- How many times PerformanceManager.cleanup runs for a given body outcome:
PerformanceManager.process (midas/core/performance/base.py lines 107 to 130)
wraps its whole body in try/finally, so cleanup (which calls save) runs
exactly once whether the body returns or raises. -/
def pmCleanupRuns (_bodyResult : Except PyErr Unit) : Nat := 1

/-- States of the order-manager polling loop (order_manager.py lines 63
to 71) as observed between scheduler steps: about to test the shutdown flag,
blocked inside signal_queue.get, or exited. -/
inductive LoopState where
  | checking
  | blockedOnGet
  | done
  deriving DecidableEq, Repr

/-- One observable step of the loop under a fixed environment (whether the
shutdown flag is set and whether the queue holds an item): at the loop head
the flag is tested and the loop then calls signal_queue.get with NO timeout
argument, so the get returns only when an item is available and otherwise
stays blocked regardless of the shutdown flag; a handled item returns to the
loop head. -/
def processStep (shutdownSet : Bool) (queueHasItem : Bool) :
    LoopState → LoopState
  | .checking =>
    if shutdownSet then .done
    else if queueHasItem then .checking else .blockedOnGet
  | .blockedOnGet => if queueHasItem then .checking else .blockedOnGet
  | .done => .done

/-- The attributes CoreEngine.__init__ assigns on self (engine.py lines 17
to 39). -/
def coreEngineInitAttrs : List String :=
  ["logger", "mode", "params", "message_bus", "symbols_map", "output_dir",
   "adapters", "porfolio_manager", "orderbook_manager",
   "performance_manager", "order_manager", "threads", "running"]

/-- The attributes present after initialize, set_strategy and start
(engine.py lines 41 to 122): those methods only fill the adapters dict,
append to threads and set the running event; no new attribute is assigned,
and in particular no completed event is ever created. -/
def coreEngineAttrsAfterStart : List String := coreEngineInitAttrs

/-- A Python attribute access on self: reading a name that was never
assigned raises AttributeError. -/
inductive PyAttrErr where
  | attributeError (name : String)
  deriving DecidableEq, Repr

/-- The tail of CoreEngine._monitor_threads (engine.py line 132): after all
adapter threads are joined it runs self.completed.set(). -/
def monitorThreadsSignal (attrs : List String) : Except PyAttrErr Unit :=
  if attrs.contains "completed" then .ok ()
  else .error (.attributeError "completed")

/-- CoreEngine.wait_until_complete (engine.py line 138): runs
self.completed.wait(). -/
def wait_until_complete (attrs : List String) : Except PyAttrErr Unit :=
  if attrs.contains "completed" then .ok ()
  else .error (.attributeError "completed")

/-- Position of shared/portfolio.py (lines 48 to 98): action BUY or SELL as
a string, monetary fields as rationals, quantity and multipliers integral. -/
structure Position where
  action : String
  avg_cost : Rat
  quantity : Int
  total_cost : Rat
  market_value : Rat
  quantity_multiplier : Int
  price_multiplier : Int
  initial_margin : Rat
  deriving DecidableEq, Repr

/-- The body of Position.eq (shared/portfolio.py lines 89 to 98) on two
Position values: field-by-field comparison of action, avg_cost, quantity,
price_multiplier, quantity_multiplier, initial_margin and total_cost. -/
def Position.eq (p other : Position) : Bool :=
  p.action == other.action &&
  p.avg_cost == other.avg_cost &&
  p.quantity == other.quantity &&
  p.price_multiplier == other.price_multiplier &&
  p.quantity_multiplier == other.quantity_multiplier &&
  p.initial_margin == other.initial_margin &&
  p.total_cost == other.total_cost

/-- Concrete data used by the witnesses: two symbols, both priced at 100,
a BUY leg of quantity 10 (cost 1000) and a SELL leg of quantity -8. -/
def symA : Symbol := ⟨101, 201, 1, 1⟩

def symB : Symbol := ⟨102, 202, 1, 1⟩

def cfgEx : Config := ⟨⟨[(1, symA), (2, symB)]⟩, ⟨[(101, 100), (102, 100)]⟩⟩

/-- The same symbol universe with instrument 2 never priced. -/
def cfgMissing : Config := ⟨⟨[(1, symA), (2, symB)]⟩, ⟨[(101, 100)]⟩⟩

def buyLeg : SignalInstruction := ⟨1, .BUY, 1, 1, 0, 10⟩

def sellLeg : SignalInstruction := ⟨2, .SELL, 1, 2, 0, -8⟩

def stEx : PortfolioState := ⟨[], 1000, []⟩

def evEx : SignalEvent := ⟨5, [buyLeg, sellLeg]⟩

/-- Two Position values identical in every field except market_value. -/
def posA : Position := ⟨"BUY", 10, 5, 50, 100, 1, 1, 0⟩

def posB : Position := ⟨"BUY", 10, 5, 50, 999, 1, 1, 0⟩

/-- When every leg is priceable, the costing loop succeeds and returns the
order_details records in instruction order together with the required-capital
total. -/
lemma costLoop_eq_of_priceable (cfg : Config) (ts : Int)
    (l : List SignalInstruction) (h : ∀ t ∈ l, legPriceable cfg t = true) :
    costLoop cfg ts l = .ok (l.map (detailOf cfg ts), totalCapitalRequired cfg l) := by
  induction l with
  | nil => rfl
  | cons t rest ih =>
    have ht : legPriceable cfg t = true := h t (by simp)
    have hrest : ∀ x ∈ rest, legPriceable cfg x = true := by
      intro x hx
      exact h x (by simp [hx])
    unfold legPriceable at ht
    cases hfind : cfg.symbols_map.find t.instrument with
    | none => rw [hfind] at ht; simp at ht
    | some s =>
      rw [hfind] at ht
      have ht2 : (cfg.order_book.retrieve s.instrument_id).isSome = true := by
        simpa using ht
      cases hret : cfg.order_book.retrieve s.instrument_id with
      | none => rw [hret] at ht2; simp at ht2
      | some p =>
        simp only [costLoop, hfind, hret, ih hrest, List.map_cons]
        have hd : detailOf cfg ts t =
            ⟨ts, t.trade_id, t.leg_id, t.action, s.contract, t.to_order⟩ := by
          simp [detailOf, hfind]
        have hc : legCost cfg t = s.cost t.to_order.quantity p := by
          simp [legCost, hfind, hret]
        simp [hd, totalCapitalRequired, hc]

/-- When no instruction touches an active-order instrument and every leg is
priceable, the handler publishes exactly the per-instruction ORDER events when
the required capital fits the available capital, and a single rejection
notification otherwise; the state is returned untouched. -/
lemma handle_event_of_priceable (cfg : Config) (st : PortfolioState)
    (e : SignalEvent)
    (hconf : ∀ t ∈ e.instructions, t.instrument ∉ st.active_order_tickers)
    (hpr : ∀ t ∈ e.instructions, legPriceable cfg t = true) :
    handle_event cfg st e =
      if totalCapitalRequired cfg e.instructions ≤ st.capital then
        .ok (st, e.instructions.map (fun t => set_order (detailOf cfg e.timestamp t)))
      else
        .ok (st, [.updateSystem false]) := by
  have hany : (e.instructions.any
      (fun trade => st.active_order_tickers.contains trade.instrument)) = false := by
    rw [List.any_eq_false]
    intro t htl
    simpa using hconf t htl
  have hsig : handleSignal cfg st e.timestamp e.instructions =
      (if totalCapitalRequired cfg e.instructions ≤ st.capital then
        .ok (e.instructions.map (fun t => set_order (detailOf cfg e.timestamp t)))
      else .ok [.updateSystem false]) := by
    unfold handleSignal
    rw [costLoop_eq_of_priceable cfg e.timestamp e.instructions hpr]
    simp only [List.map_map]
    split <;> rfl
  unfold handle_event
  simp only [hany, Bool.false_eq_true, if_false, hsig]
  by_cases hle : totalCapitalRequired cfg e.instructions ≤ st.capital
  · simp [hle]
  · simp [hle]

/-- If some instruction has a known symbol whose instrument was never priced,
the costing loop fails (possibly with an earlier exception). -/
lemma costLoop_error_of_unpriced (cfg : Config) (ts : Int)
    (l : List SignalInstruction)
    (h : ∃ t ∈ l, ∃ s, cfg.symbols_map.find t.instrument = some s ∧
        cfg.order_book.retrieve s.instrument_id = none) :
    ∃ err, costLoop cfg ts l = .error err := by
  induction l with
  | nil => simp at h
  | cons t rest ih =>
    cases hfind : cfg.symbols_map.find t.instrument with
    | none => exact ⟨.keyError t.instrument, by simp [costLoop, hfind]⟩
    | some s =>
      cases hret : cfg.order_book.retrieve s.instrument_id with
      | none => exact ⟨.priceNotFound s.instrument_id, by simp [costLoop, hfind, hret]⟩
      | some p =>
        have hrest : ∃ x ∈ rest, ∃ s2, cfg.symbols_map.find x.instrument = some s2 ∧
            cfg.order_book.retrieve s2.instrument_id = none := by
          rcases h with ⟨x, hx, s2, hf2, hr2⟩
          rcases List.mem_cons.mp hx with hx1 | hx2
          · exfalso
            rw [hx1, hfind] at hf2
            cases hf2
            rw [hret] at hr2
            cases hr2
          · exact ⟨x, hx2, s2, hf2, hr2⟩
        rcases ih hrest with ⟨err, herr⟩
        exact ⟨err, by simp [costLoop, hfind, hret, herr]⟩

/-- The required-capital total is the sum of the leg costs over exactly the
legs whose action is neither SELL nor COVER. -/
lemma totalCapitalRequired_eq_filter_sum (cfg : Config)
    (l : List SignalInstruction) :
    totalCapitalRequired cfg l =
      ((l.filter (fun t =>
          decide (t.action ≠ Action.SELL ∧ t.action ≠ Action.COVER))).map
        (legCost cfg)).sum := by
  induction l with
  | nil => rfl
  | cons t rest ih =>
    by_cases hS : t.action = Action.SELL
    · rw [totalCapitalRequired, if_neg (by simp [hS]), List.filter_cons,
        if_neg (by simp [hS]), ih, zero_add]
    · by_cases hC : t.action = Action.COVER
      · rw [totalCapitalRequired, if_neg (by simp [hC]), List.filter_cons,
          if_neg (by simp [hC]), ih, zero_add]
      · rw [totalCapitalRequired, if_pos (by simp [hS, hC]), List.filter_cons,
          if_pos (by simp [hS, hC]), List.map_cons, List.sum_cons, ih]

/-- A signal all of whose legs are exits requires zero capital. -/
lemma totalCapitalRequired_eq_zero_of_exits (cfg : Config)
    (l : List SignalInstruction)
    (h : ∀ t ∈ l, t.action = Action.SELL ∨ t.action = Action.COVER) :
    totalCapitalRequired cfg l = 0 := by
  induction l with
  | nil => rfl
  | cons t rest ih =>
    have ht := h t (by simp)
    have hmem : t.action ∈ [Action.SELL, Action.COVER] := by
      rcases ht with h1 | h1 <;> simp [h1]
    have hrest := ih (fun x hx => h x (by simp [hx]))
    simp [totalCapitalRequired, hmem, hrest]

/-- C1: for a SIGNAL event that passes the conflict check and whose every leg
can be priced, the engine publishes one ORDER event per instruction in the
original order exactly when the required capital is at most the available
capital, and otherwise publishes no ORDER event and a single SYSTEM_UPDATE
carrying false: multi-leg emission is all-or-nothing. -/
theorem C1_admission_all_or_nothing (cfg : Config) (st : PortfolioState)
    (e : SignalEvent)
    (hconf : ∀ t ∈ e.instructions, t.instrument ∉ st.active_order_tickers)
    (hpr : ∀ t ∈ e.instructions, legPriceable cfg t = true) :
    (totalCapitalRequired cfg e.instructions ≤ st.capital →
      handle_event cfg st e = .ok (st,
        e.instructions.map (fun t => set_order (detailOf cfg e.timestamp t))))
    ∧ (¬ totalCapitalRequired cfg e.instructions ≤ st.capital →
      handle_event cfg st e = .ok (st, [.updateSystem false])) := by
  have hch := handle_event_of_priceable cfg st e hconf hpr
  constructor
  · intro hle
    rw [hch, if_pos hle]
  · intro hgt
    rw [hch, if_neg hgt]

/-- C1 witness: the concrete BUY 1000 and SELL -800 signal against capital
1000 is admitted and emits exactly its two ORDER events in order. -/
theorem C1_admission_all_or_nothing_witness :
    handle_event cfgEx stEx evEx = .ok (stEx,
      evEx.instructions.map (fun t => set_order (detailOf cfgEx evEx.timestamp t))) :=
  (C1_admission_all_or_nothing cfgEx stEx evEx (by decide) (by decide)).1
    (by norm_num [totalCapitalRequired, legCost, Symbol.cost, cfgEx, symA,
        symB, buyLeg, sellLeg, stEx, evEx, SymbolMap.find, OrderBook.retrieve,
        SignalInstruction.to_order]; decide)

/-- C2: when the costing loop succeeds, the accumulated required capital is
the sum of quantity times price times the instrument multipliers over exactly
the instructions whose action is neither SELL nor COVER; exit legs contribute
nothing. -/
theorem C2_capital_aggregation_excludes_exits (cfg : Config) (ts : Int)
    (l : List SignalInstruction) (orders : List OrderDetails) (total : Rat)
    (hpr : ∀ t ∈ l, legPriceable cfg t = true)
    (hok : costLoop cfg ts l = .ok (orders, total)) :
    total = ((l.filter (fun t =>
        decide (t.action ≠ Action.SELL ∧ t.action ≠ Action.COVER))).map
      (legCost cfg)).sum := by
  rw [costLoop_eq_of_priceable cfg ts l hpr] at hok
  have htot : total = totalCapitalRequired cfg l := by
    cases hok
    rfl
  rw [htot, totalCapitalRequired_eq_filter_sum]

/-- C2 witness: on the BUY 1000 and SELL -800 signal the total is the cost of
the BUY leg alone. -/
theorem C2_capital_aggregation_excludes_exits_witness :
    (1000 : Rat) = (([buyLeg, sellLeg].filter (fun t =>
        decide (t.action ≠ Action.SELL ∧ t.action ≠ Action.COVER))).map
      (legCost cfgEx)).sum :=
  C2_capital_aggregation_excludes_exits cfgEx 5 [buyLeg, sellLeg]
    [detailOf cfgEx 5 buyLeg, detailOf cfgEx 5 sellLeg] 1000
    (by decide)
    (by norm_num [costLoop, Symbol.cost, cfgEx, symA, symB, buyLeg, sellLeg,
        SymbolMap.find, OrderBook.retrieve, SignalInstruction.to_order,
        detailOf]; decide)

/-- When the conflict check fires, the handler publishes the single rejection
notification and returns, visiting neither the symbol map nor the order
book. -/
lemma handle_event_conflict (cfg : Config) (st : PortfolioState)
    (e : SignalEvent)
    (hany : (e.instructions.any
      (fun trade => st.active_order_tickers.contains trade.instrument)) = true) :
    handle_event cfg st e = .ok (st, [.updateSystem false]) := by
  unfold handle_event
  simp only [hany]
  rfl

/-- C3: a signal referencing any instrument with an active order is rejected
whole: the published output is exactly one SYSTEM_UPDATE carrying false, with
no ORDER event, the state is untouched, and the result does not depend on the
symbol map or the price book (no capital computation happens). -/
theorem C3_conflict_rejects_whole_signal (cfg cfg2 : Config)
    (st : PortfolioState) (e : SignalEvent)
    (h : ∃ t ∈ e.instructions, t.instrument ∈ st.active_order_tickers) :
    handle_event cfg st e = .ok (st, [.updateSystem false])
    ∧ handle_event cfg st e = handle_event cfg2 st e := by
  have hany : (e.instructions.any
      (fun trade => st.active_order_tickers.contains trade.instrument)) = true := by
    rw [List.any_eq_true]
    rcases h with ⟨t, htl, hmem⟩
    exact ⟨t, htl, by simpa using hmem⟩
  exact ⟨handle_event_conflict cfg st e hany,
    (handle_event_conflict cfg st e hany).trans
      (handle_event_conflict cfg2 st e hany).symm⟩

/-- C3 witness: a one-leg signal on instrument 1 while instrument 1 has an
active order is rejected with a single SYSTEM_UPDATE false. -/
theorem C3_conflict_rejects_whole_signal_witness :
    handle_event cfgEx ⟨[1], 1000, []⟩ ⟨5, [buyLeg]⟩ =
      .ok (⟨[1], 1000, []⟩, [.updateSystem false]) :=
  (C3_conflict_rejects_whole_signal cfgEx ⟨⟨[]⟩, ⟨[]⟩⟩ ⟨[1], 1000, []⟩
    ⟨5, [buyLeg]⟩ (by decide)).1

/-- C4: when the order-book lookup fails for some leg of the signal, the run
publishes no ORDER event at all: the failure aborts the whole multi-leg
signal before any order is published. -/
theorem C4_missing_price_aborts_signal (cfg : Config) (st : PortfolioState)
    (e : SignalEvent)
    (h : ∃ t ∈ e.instructions, ∃ s,
        cfg.symbols_map.find t.instrument = some s ∧
        cfg.order_book.retrieve s.instrument_id = none) :
    orderEvents (publishedMsgs (handle_event cfg st e)) = [] := by
  cases hany : (e.instructions.any
      (fun trade => st.active_order_tickers.contains trade.instrument)) with
  | true =>
    rw [handle_event_conflict cfg st e hany]
    rfl
  | false =>
    rcases costLoop_error_of_unpriced cfg e.timestamp e.instructions h with
      ⟨err, herr⟩
    have hsig : handleSignal cfg st e.timestamp e.instructions = .error err := by
      unfold handleSignal
      rw [herr]
    have hev : handle_event cfg st e = .error err := by
      unfold handle_event
      simp only [hany, Bool.false_eq_true, if_false, hsig]
    rw [hev]
    rfl

/-- C4 witness: a two-leg signal whose second instrument was never priced
emits zero ORDER events. -/
theorem C4_missing_price_aborts_signal_witness :
    orderEvents (publishedMsgs (handle_event cfgMissing stEx evEx)) = [] :=
  C4_missing_price_aborts_signal cfgMissing stEx evEx
    ⟨sellLeg, by decide, symB, by decide, by decide⟩

/-- C5: handling a SIGNAL event leaves the portfolio state unchanged on
every non-exceptional path: available capital, the position map and the
active-order set are returned exactly as read; the only effects are the
published bus messages. -/
theorem C5_signal_handling_read_only (cfg : Config) (st : PortfolioState)
    (e : SignalEvent) (st2 : PortfolioState) (msgs : List BusMsg)
    (h : handle_event cfg st e = .ok (st2, msgs)) : st2 = st := by
  unfold handle_event at h
  by_cases hany : (e.instructions.any
      (fun trade => st.active_order_tickers.contains trade.instrument)) = true
  · simp only [hany, if_true] at h
    cases h
    rfl
  · simp only [Bool.not_eq_true] at hany
    simp only [hany, Bool.false_eq_true, if_false] at h
    cases hsig : handleSignal cfg st e.timestamp e.instructions with
    | error err => rw [hsig] at h; cases h
    | ok m =>
      rw [hsig] at h
      cases h
      rfl

/-- C5 witness: on a concrete rejected signal the returned state is the
input state. -/
theorem C5_signal_handling_read_only_witness :
    (⟨[1], 1000, []⟩ : PortfolioState) = ⟨[1], 1000, []⟩ :=
  C5_signal_handling_read_only cfgEx ⟨[1], 1000, []⟩ ⟨5, [buyLeg]⟩
    ⟨[1], 1000, []⟩ [.updateSystem false] rfl

/-- C10: an exit-only signal (every leg SELL or COVER) with no conflict and
all legs priceable requires zero capital and is admitted exactly when the
available capital is nonnegative; with negative capital even an exit-only
signal is rejected with a single SYSTEM_UPDATE false and zero ORDER events. -/
theorem C10_exit_only_signal_needs_nonnegative_capital (cfg : Config)
    (st : PortfolioState) (e : SignalEvent)
    (hconf : ∀ t ∈ e.instructions, t.instrument ∉ st.active_order_tickers)
    (hpr : ∀ t ∈ e.instructions, legPriceable cfg t = true)
    (hexit : ∀ t ∈ e.instructions,
      t.action = Action.SELL ∨ t.action = Action.COVER) :
    totalCapitalRequired cfg e.instructions = 0
    ∧ (0 ≤ st.capital → handle_event cfg st e = .ok (st,
        e.instructions.map (fun t => set_order (detailOf cfg e.timestamp t))))
    ∧ (st.capital < 0 →
        handle_event cfg st e = .ok (st, [.updateSystem false])) := by
  have h0 := totalCapitalRequired_eq_zero_of_exits cfg e.instructions hexit
  have hch := handle_event_of_priceable cfg st e hconf hpr
  rw [h0] at hch
  refine ⟨h0, fun hle => ?_, fun hlt => ?_⟩
  · rw [hch, if_pos hle]
  · rw [hch, if_neg (not_le.mpr hlt)]

/-- C10 witness: a single SELL leg against capital -5 is rejected with one
SYSTEM_UPDATE false. -/
theorem C10_exit_only_signal_needs_nonnegative_capital_witness :
    handle_event cfgEx ⟨[], -5, []⟩ ⟨7, [sellLeg]⟩ =
      .ok (⟨[], -5, []⟩, [.updateSystem false]) :=
  (C10_exit_only_signal_needs_nonnegative_capital cfgEx ⟨[], -5, []⟩
    ⟨7, [sellLeg]⟩ (by decide) (by decide) (by decide)).2.2 (by norm_num)

/-- C6: with the shutdown flag set and no further event ever arriving on the
queue, the loop stays blocked inside signal_queue.get forever: after any
number of steps it is still blocked and has not exited, because the get
carries no timeout and a blocking get never raises queue.Empty, so the
shutdown flag is never re-checked. The claim that every queue wait is a
bounded wait observed within one polling interval fails on this code. -/
theorem C6_shutdown_never_observed_on_idle_queue (n : Nat) :
    (processStep true false)^[n] LoopState.blockedOnGet =
      LoopState.blockedOnGet := by
  induction n with
  | zero => rfl
  | succ k ih =>
    rw [Function.iterate_succ_apply, show processStep true false
      LoopState.blockedOnGet = LoopState.blockedOnGet from rfl, ih]

/-- C7 counterexample: a concrete run of the order-execution loop in which
handling the only event raises (its second leg was never priced) exits the
loop without running cleanup: cleanup runs zero times, not once. -/
theorem C7_cleanup_skipped_on_error_exit :
    omCleanupRuns cfgMissing stEx [evEx] = 0 := by
  rfl

/-- C7 amended: cleanup runs exactly once on a normal exit of the
order-execution manager loop, and the Performance Collector, whose process
wraps its body in try/finally, runs its cleanup (and hence save) exactly
once on every exit, error or not; the order-execution manager makes no such
guarantee on an error exit. -/
theorem C7_cleanup_once_amended (cfg : Config) (st : PortfolioState)
    (events : List SignalEvent) (r : Except PyErr Unit)
    (h : processLoop cfg st events = .ok ()) :
    omCleanupRuns cfg st events = 1 ∧ pmCleanupRuns r = 1 := by
  unfold omCleanupRuns
  rw [h]
  exact ⟨rfl, rfl⟩

/-- C7 amended witness: an empty run exits normally and cleans up once, and
the performance manager cleans up once even when its body raises. -/
theorem C7_cleanup_once_amended_witness :
    omCleanupRuns cfgEx stEx [] = 1 ∧
      pmCleanupRuns (.error (.keyError 0)) = 1 :=
  C7_cleanup_once_amended cfgEx stEx [] (.error (.keyError 0)) rfl

/-- C8: the completion event is never created: CoreEngine.__init__ assigns
no completed attribute and neither does any later method, so the tail of
_monitor_threads (self.completed.set()) and wait_until_complete
(self.completed.wait()) both raise AttributeError instead of signalling and
returning normally. -/
theorem C8_completed_event_never_initialized :
    monitorThreadsSignal coreEngineAttrsAfterStart =
        .error (.attributeError "completed")
      ∧ wait_until_complete coreEngineAttrsAfterStart =
        .error (.attributeError "completed") := by
  exact ⟨rfl, rfl⟩

/-- C9 counterexample: two Position values that differ only in market_value
are reported equal by Position.eq, so equality does not compare the
market-value field as the claim states. -/
theorem C9_position_equality_counterexample :
    ¬ (Position.eq posA posB = true ↔
      (posA.action = posB.action ∧ posA.avg_cost = posB.avg_cost ∧
       posA.quantity = posB.quantity ∧
       posA.price_multiplier = posB.price_multiplier ∧
       posA.quantity_multiplier = posB.quantity_multiplier ∧
       posA.initial_margin = posB.initial_margin ∧
       posA.total_cost = posB.total_cost ∧
       posA.market_value = posB.market_value)) := by
  decide

/-- C9 amended: Position equality compares exactly the economic fields
action, average cost, quantity, price multiplier, quantity multiplier,
initial margin and total cost, and not market value: two Position values
agreeing on those seven fields are equal even when their market values
differ. -/
theorem C9_position_equality_amended (p q : Position) :
    Position.eq p q = true ↔
      (p.action = q.action ∧ p.avg_cost = q.avg_cost ∧
       p.quantity = q.quantity ∧ p.price_multiplier = q.price_multiplier ∧
       p.quantity_multiplier = q.quantity_multiplier ∧
       p.initial_margin = q.initial_margin ∧
       p.total_cost = q.total_cost) := by
  unfold Position.eq
  simp [Bool.and_eq_true, beq_iff_eq, and_assoc]

end Midas
